import Mathlib

/-!
Verification of the incident-history extraction scripts
(`scripts/extract_incidents.py` and `scripts/run_gliner_experiment.py`).

Conventions of the shallow embedding:
* Python `datetime` values (always UTC in this program) are the `DT` structure
  below; instants are compared through `toSecs` (seconds relative to the civil
  epoch 1970-01-01), matching aware-datetime comparison and subtraction.
* Python `None` is `Option.none`; Python truthiness of strings/lists is spelled
  out at each use site (`≠ ""`, `≠ []`).
* Python exceptions that the source lets escape are `Except.error`; exceptions
  it catches are handled at the catch site.
* Python dicts are insertion-ordered association lists; `dictInsert*` mirrors
  `d[k] = v` (overwrite keeps the original position) and `setdefault` mirrors
  `d.setdefault(k, v)`.
* ISO-8601 rendering with a trailing `Z` (`isoformat().replace("+00:00","Z")`)
  is `isoZ`; where the source renders an instant to a string and later parses
  it back with `parse_iso8601` (a bijection on instants), the embedding keeps
  the instant.
-/

namespace GHStatus

/-- Proleptic-Gregorian leap-year test, as used by Python's `datetime`. -/
def isLeap (y : Int) : Bool := y % 4 == 0 && (y % 100 != 0 || y % 400 == 0)

/-- Length of a month, as validated by the `datetime` constructor. -/
def daysInMonth (y : Int) (m : Nat) : Nat :=
  if m = 2 then (if isLeap y then 29 else 28)
  else if m = 4 ∨ m = 6 ∨ m = 9 ∨ m = 11 then 30
  else 31

/-- A UTC timestamp, mirroring `datetime(..., tzinfo=timezone.utc)`. -/
structure DT where
  year : Int
  month : Nat
  day : Nat
  hour : Nat
  minute : Nat
  second : Nat
deriving DecidableEq, Repr

/-- Field validation performed by the `datetime` constructor; a violation
raises `ValueError` in the source. -/
def validDT (t : DT) : Bool :=
  1 ≤ t.year && t.year ≤ 9999 && 1 ≤ t.month && t.month ≤ 12 &&
  1 ≤ t.day && t.day ≤ daysInMonth t.year t.month &&
  t.hour ≤ 23 && t.minute ≤ 59 && t.second ≤ 59

/-- `datetime(y, mo, d, h, mi, s, tzinfo=utc)`: `some` on success, `none`
when the constructor would raise `ValueError`. -/
def tryMkDT (y : Int) (mo d h mi s : Nat) : Option DT :=
  let t : DT := ⟨y, mo, d, h, mi, s⟩
  if validDT t then some t else none

/-- Days between a civil date and 1970-01-01 (Hinnant's `days_from_civil`). -/
def daysFromCivil (y : Int) (m d : Nat) : Int :=
  let yAdj : Int := if m ≤ 2 then y - 1 else y
  let era : Int := Int.fdiv yAdj 400
  let yoe : Int := yAdj - era * 400
  let mp : Nat := if m > 2 then m - 3 else m + 9
  let doy : Int := ((153 * (mp : Int) + 2) / 5) + (d : Int) - 1
  let doe : Int := yoe * 365 + yoe / 4 - yoe / 100 + doy
  era * 146097 + doe - 719468

/-- Seconds of an instant relative to 1970-01-01T00:00:00Z; aware-datetime
comparison and subtraction in the source are comparison and subtraction of
this value. -/
def toSecs (t : DT) : Int :=
  daysFromCivil t.year t.month t.day * 86400 +
    (t.hour : Int) * 3600 + (t.minute : Int) * 60 + (t.second : Int)

/-- `infer_year` (extract_incidents.py): try the reference year and its two
neighbours, keep the constructible candidates with their absolute distances
from the reference, stable-sort by distance, and return the closest. -/
def infer_year (ref : DT) (month day hour minute : Nat) : Option DT :=
  let candidates := ([ref.year - 1, ref.year, ref.year + 1]).filterMap
    (fun y => (tryMkDT y month day hour minute 0).map
      (fun dt => ((toSecs dt - toSecs ref).natAbs, dt)))
  let sorted := candidates.insertionSort (fun a b => a.1 ≤ b.1)
  (sorted.head?).map Prod.snd

/-! ### Impact-window sentence matching

`IMPACT_RE_1` / `IMPACT_RE_2` are simple regular expressions (literals,
`\s+`, full month names, `\d{1,2}`, `\d{2}`, `\d{4}`, case-insensitive,
applied with `re.search`).  They are embedded as executable matchers over
`List Char`: `searchA` tries every start position left to right (leftmost
match), and the only backtracking a regex engine performs on these patterns —
`\d{1,2}` followed by a required separator — is reproduced by trying the
two-digit reading before the one-digit reading.  Case-insensitivity is ASCII
(all pattern letters are ASCII). -/

/-- Lower-cased code point of a character (ASCII case folding). -/
def lowCode (c : Char) : Nat :=
  let n := c.toNat
  if 65 ≤ n && n ≤ 90 then n + 32 else n

/-- Case-insensitive character comparison. -/
def eqCI (a b : Char) : Bool := lowCode a == lowCode b

/-- ASCII decimal digit test (`\d` on these inputs). -/
def isDigitC (c : Char) : Bool := 48 ≤ c.toNat && c.toNat ≤ 57

/-- Value of a decimal digit character. -/
def digitVal (c : Char) : Nat := c.toNat - 48

/-- Whitespace as matched by `\s` (ASCII part). -/
def isSpaceC (c : Char) : Bool :=
  c.toNat = 32 || c.toNat = 9 || c.toNat = 10 || c.toNat = 13 ||
  c.toNat = 11 || c.toNat = 12

/-- Case-insensitive literal: consume `pat` from the input, return the rest. -/
def matchLit : List Char → List Char → Option (List Char)
  | [], rest => some rest
  | _ :: _, [] => none
  | p :: ps, c :: cs => if eqCI p c then matchLit ps cs else none

/-- `\s+` followed by a non-space token: consume one or more whitespace
characters (maximal munch; the following pattern element never matches
whitespace). -/
def ws1 : List Char → Option (List Char)
  | c :: cs => if isSpaceC c then some (cs.dropWhile isSpaceC) else none
  | [] => none

/-- The full month names of `MONTH_FULL`, with their numbers. -/
def monthNames : List (String × Nat) :=
  [("January", 1), ("February", 2), ("March", 3), ("April", 4), ("May", 5),
   ("June", 6), ("July", 7), ("August", 8), ("September", 9), ("October", 10),
   ("November", 11), ("December", 12)]

/-- The month-name alternation of the impact regexes (case-insensitive;
`group.title()` plus the `MONTH_FULL` lookup is embedded as returning the
month number directly). -/
def matchMonth (cs : List Char) : Option (Nat × List Char) :=
  monthNames.findSome? fun p => (matchLit p.1.data cs).map fun r => (p.2, r)

/-- `\d{2}`: exactly two digits. -/
def digits2 : List Char → Option (Nat × List Char)
  | c1 :: c2 :: cs =>
    if isDigitC c1 && isDigitC c2 then some (digitVal c1 * 10 + digitVal c2, cs)
    else none
  | _ => none

/-- `\d{4}`: exactly four digits. -/
def digits4 (cs : List Char) : Option (Nat × List Char) := do
  let (hi, r) ← digits2 cs
  let (lo, r) ← digits2 r
  pure (hi * 100 + lo, r)

/-- `\d{1,2}`: the greedy readings in engine order (two digits, then one). -/
def digits12 : List Char → List (Nat × List Char)
  | c1 :: c2 :: rest =>
    if isDigitC c1 then
      if isDigitC c2 then
        [(digitVal c1 * 10 + digitVal c2, rest), (digitVal c1, c2 :: rest)]
      else [(digitVal c1, c2 :: rest)]
    else []
  | [c1] => if isDigitC c1 then [(digitVal c1, [])] else []
  | [] => []

/-- `\d{1,2},`: a one-or-two-digit number directly followed by a comma. -/
def digits12Comma (cs : List Char) : Option (Nat × List Char) :=
  (digits12 cs).findSome? fun p =>
    match p.2 with
    | ',' :: r => some (p.1, r)
    | _ => none

/-- `\d{1,2}:\d{2}`: an hour/minute pair. -/
def matchHHMM (cs : List Char) : Option (Nat × Nat × List Char) :=
  (digits12 cs).findSome? fun p =>
    match p.2 with
    | ':' :: r => (digits2 r).map fun q => (p.1, q.1, q.2)
    | _ => none

/-- A literal comma. -/
def matchComma : List Char → Option (List Char)
  | ',' :: r => some r
  | _ => none

/-- The captured groups of either impact regex, normalised to one shape. -/
structure ImpactFields where
  month : Nat
  day : Nat
  year : Nat
  sh : Nat
  sm : Nat
  eh : Nat
  em : Nat
deriving DecidableEq, Repr

/-- A case-insensitive literal followed by `\s+`. -/
def litWs (pat : String) (cs : List Char) : Option (List Char) :=
  (matchLit pat.data cs).bind ws1

/-- The shared date clause `(MONTH)\s+(\d{1,2}),\s+(\d{4})` of both impact
regexes: month number, day, year, and the rest of the input. -/
def matchDate (cs : List Char) : Option (Nat × Nat × Nat × List Char) := do
  let (mo, r) ← matchMonth cs
  let r ← ws1 r
  let (d, r) ← digits12Comma r
  let r ← ws1 r
  let (y, r) ← digits4 r
  pure (mo, d, y, r)

/-- The shared clause
`between\s+(\d{1,2}:\d{2})\s+UTC\s+and\s+(\d{1,2}:\d{2})\s+UTC` of both
impact regexes: start hour/minute, end hour/minute, rest. -/
def matchBetween (cs : List Char) : Option (Nat × Nat × Nat × Nat × List Char) := do
  let r ← litWs "between" cs
  let (sh, sm, r) ← matchHHMM r
  let r ← ws1 r
  let r ← litWs "UTC" r
  let r ← litWs "and" r
  let (eh, em, r) ← matchHHMM r
  let r ← ws1 r
  let r ← matchLit "UTC".data r
  pure (sh, sm, eh, em, r)

/-- `IMPACT_RE_1` anchored at the start of the input:
`On\s+(MONTH)\s+(\d{1,2}),\s+(\d{4}),\s+between\s+(\d{1,2}:\d{2})\s+UTC\s+and\s+(\d{1,2}:\d{2})\s+UTC`. -/
def matchImpact1At (cs : List Char) : Option ImpactFields := do
  let r ← litWs "On" cs
  let (mo, d, y, r) ← matchDate r
  let r ← matchComma r
  let r ← ws1 r
  let (sh, sm, eh, em, _) ← matchBetween r
  pure ⟨mo, d, y, sh, sm, eh, em⟩

/-- `IMPACT_RE_2` anchored at the start of the input:
`between\s+(\d{1,2}:\d{2})\s+UTC\s+and\s+(\d{1,2}:\d{2})\s+UTC,\s+on\s+(MONTH)\s+(\d{1,2}),\s+(\d{4})`. -/
def matchImpact2At (cs : List Char) : Option ImpactFields := do
  let (sh, sm, eh, em, r) ← matchBetween cs
  let r ← matchComma r
  let r ← ws1 r
  let r ← litWs "on" r
  let (mo, d, y, _) ← matchDate r
  pure ⟨mo, d, y, sh, sm, eh, em⟩

/-- `re.search`: try the anchored matcher at every position, left to right. -/
def searchA (m : List Char → Option ImpactFields) : List Char → Option ImpactFields
  | [] => m []
  | c :: cs =>
    match m (c :: cs) with
    | some v => some v
    | none => searchA m cs

/-- `IMPACT_RE_1.search(message)`. -/
def impactSearch1 (s : String) : Option ImpactFields := searchA matchImpact1At s.data

/-- `IMPACT_RE_2.search(message)`. -/
def impactSearch2 (s : String) : Option ImpactFields := searchA matchImpact2At s.data

/-- A parsed impact window: start/end instants (in seconds, see `toSecs`)
and the matching message kept as context.  The source tag `"postmortem"`
is attached by the output writer and is constant. -/
structure Window where
  startSecs : Int
  endSecs : Int
  context : String
deriving DecidableEq, Repr

/-- The window construction the source performs on the captured groups:
build both datetimes (a `ValueError` escapes `parse_impact_window`, hence
`Except.error`), and roll the end over by one day when it does not exceed
the start. -/
def buildWindow (f : ImpactFields) (message : String) : Except Unit Window :=
  match tryMkDT f.year f.month f.day f.sh f.sm 0,
        tryMkDT f.year f.month f.day f.eh f.em 0 with
  | some sdt, some edt =>
    let s := toSecs sdt
    let e := toSecs edt
    .ok ⟨s, if e ≤ s then e + 86400 else e, message⟩
  | _, _ => .error ()

/-- `parse_impact_window` (extract_incidents.py): first message matching
either template wins; `.ok none` when no message matches; `.error` models
the uncaught `ValueError` when a matched date/time is not constructible. -/
def parse_impact_window : List String → Except Unit (Option Window)
  | [] => .ok none
  | message :: rest =>
    match impactSearch1 message with
    | some f => (buildWindow f message).map some
    | none =>
      match impactSearch2 message with
      | some f => (buildWindow f message).map some
      | none => parse_impact_window rest

deriving instance DecidableEq for Except

/-! ### Raw entries, merged incidents, and the merge engine -/

/-- One parsed status update (`parse_updates` output).  The transient
`_order` index of the source is omitted: it is written and later popped but
never read. -/
structure Update where
  at_ : DT
  status : String
  message : String
deriving DecidableEq, Repr

/-- One Atom entry as produced by `parse_atom`. -/
structure RawEntry where
  id : String
  entry_id : String
  title : String
  url : Option String
  published_at : Option DT
  updated_at : Option DT
  updates : List Update
deriving DecidableEq, Repr

/-- The merge engine's working state for one incident identifier.  `updates`
is the insertion-ordered dict keyed by `update_key`. -/
structure MergedIncident where
  id : String
  entry_id : String
  title : String
  url : Option String
  published_at : Option DT
  updated_at : Option DT
  updates : List (String × Update)
deriving DecidableEq, Repr

/-- Zero-pad a number to two digits. -/
def pad2 (n : Nat) : String := if n < 10 then "0" ++ toString n else toString n

/-- Zero-pad a number to four digits (`datetime` years are 1–9999). -/
def pad4 (n : Nat) : String :=
  if n < 10 then "000" ++ toString n
  else if n < 100 then "00" ++ toString n
  else if n < 1000 then "0" ++ toString n
  else toString n

/-- `dt.isoformat().replace("+00:00", "Z")` for a UTC datetime with zero
microseconds: `YYYY-MM-DDTHH:MM:SSZ`. -/
def isoZ (t : DT) : String :=
  pad4 t.year.toNat ++ "-" ++ pad2 t.month ++ "-" ++ pad2 t.day ++ "T" ++
  pad2 t.hour ++ ":" ++ pad2 t.minute ++ ":" ++ pad2 t.second ++ "Z"

/-- `update_key` (extract_incidents.py): the composite dedup key
`"{at}|{status}|{message}"`. -/
def update_key (u : Update) : String :=
  isoZ u.at_ ++ "|" ++ u.status ++ "|" ++ u.message

/-- Key lookup in an insertion-ordered dict. -/
def dictFind (m : List (String × Update)) (k : String) : Option Update :=
  (m.find? fun p => p.1 == k).map (·.2)

/-- `d[k] = v` on an insertion-ordered dict: overwrite keeps the original
position, a fresh key is appended. -/
def dictInsert (m : List (String × Update)) (k : String) (v : Update) :
    List (String × Update) :=
  if (m.find? fun p => p.1 == k).isSome then
    m.map fun p => if p.1 == k then (k, v) else p
  else m ++ [(k, v)]

/-- `d.setdefault(k, v)`: keep an existing binding, append a fresh one. -/
def setdefault (m : List (String × Update)) (k : String) (v : Update) :
    List (String × Update) :=
  if (m.find? fun p => p.1 == k).isSome then m else m ++ [(k, v)]

/-- `{update_key(u): u for u in updates}` (later duplicates overwrite). -/
def dictOfUpdates (us : List Update) : List (String × Update) :=
  us.foldl (fun m u => dictInsert m (update_key u) u) []

/-- `incoming["updated_at"]`-gated refresh of title/url/entry_id uses Python
`or` on strings and optional strings. -/
def pyOrStr (a b : String) : String := if a ≠ "" then a else b

/-- Python `a or b` where `a` is an optional string. -/
def pyOrOptStr (a b : Option String) : Option String :=
  match a with
  | some s => if s ≠ "" then some s else b
  | none => b

/-- Key membership in an update dict. -/
def hasKey (m : List (String × Update)) (k : String) : Bool :=
  (m.find? fun p => p.1 == k).isSome

/-- The guard `incoming["published_at"] and (existing["published_at"] is
None or incoming["published_at"] < existing["published_at"])` of
`merge_incident`. -/
def pubAdopt (ex : MergedIncident) (incoming : RawEntry) : Bool :=
  match incoming.published_at with
  | some ip =>
    match ex.published_at with
    | none => true
    | some ep => toSecs ip < toSecs ep
  | none => false

/-- The guard `incoming["updated_at"] and (existing["updated_at"] is None
or incoming["updated_at"] > existing["updated_at"])` of `merge_incident`. -/
def updAdopt (ex : MergedIncident) (incoming : RawEntry) : Bool :=
  match incoming.updated_at with
  | some iu =>
    match ex.updated_at with
    | none => true
    | some eu => toSecs eu < toSecs iu
  | none => false

/-- `merge_incident` (extract_incidents.py). -/
def merge_incident (existing : Option MergedIncident) (incoming : RawEntry) :
    MergedIncident :=
  match existing with
  | none =>
    ⟨incoming.id, incoming.entry_id, incoming.title, incoming.url,
     incoming.published_at, incoming.updated_at, dictOfUpdates incoming.updates⟩
  | some ex =>
    let ex1 :=
      if pubAdopt ex incoming then { ex with published_at := incoming.published_at }
      else ex
    let ex2 :=
      if updAdopt ex1 incoming then
        { ex1 with
          updated_at := incoming.updated_at
          title := pyOrStr incoming.title ex1.title
          url := pyOrOptStr incoming.url ex1.url
          entry_id := pyOrStr incoming.entry_id ex1.entry_id }
      else ex1
    { ex2 with
      updates := incoming.updates.foldl
        (fun m u => setdefault m (update_key u) u) ex2.updates }

/-! ### Finalization -/

/-- `STATUS_ORDER.get(status, 99)`. -/
def rank (s : String) : Nat :=
  if s = "Investigating" then 0
  else if s = "Identified" then 1
  else if s = "Monitoring" then 2
  else if s = "Update" then 3
  else if s = "Resolved" then 4
  else 99

/-- Code-point lexicographic order on character lists: Python `<=` on
strings. -/
def charsLe : List Char → List Char → Bool
  | [], _ => true
  | _ :: _, [] => false
  | a :: as, b :: bs =>
    if a.toNat < b.toNat then true
    else if b.toNat < a.toNat then false
    else charsLe as bs

/-- Python string comparison (code-point lexicographic). -/
def strLe (a b : String) : Bool := charsLe a.data b.data

/-- The sort key of `finalize_incident` — the tuple
`(at, STATUS_ORDER.get(status, 99), message)` — compared as Python compares
tuples (lexicographically). -/
def updLE (a b : Update) : Prop :=
  toSecs a.at_ < toSecs b.at_ ∨
    (toSecs a.at_ = toSecs b.at_ ∧
      (rank a.status < rank b.status ∨
        (rank a.status = rank b.status ∧ strLe a.message b.message = true)))

instance : DecidableRel updLE := fun _ _ => by unfold updLE; infer_instance

/-- The finalized, externally consumable incident record.  Timestamp fields
the source renders as ISO strings are kept as instants (`DT`, or seconds for
the downtime fields); `impact`/`components` are the keys optionally added
later by enrichment. -/
structure FinalizedIncident where
  id : String
  entry_id : String
  title : String
  url : Option String
  published_at : Option DT
  updated_at : Option DT
  status_sequence : List String
  started_at : Option DT
  resolved_at : Option DT
  impact_window : Option Window
  downtime_start : Option Int
  downtime_end : Option Int
  duration_minutes : Option Int
  updates : List Update
  impact : Option String := none
  components : Option (List String) := none
deriving DecidableEq, Repr

/-- `finalize_incident` (extract_incidents.py).  The update list is the
dict's values stable-sorted by `updLE`; `duration_minutes` is
`int(total_seconds // 60)`, i.e. floor division; `.error` propagates the
`ValueError` `parse_impact_window` can raise. -/
def finalize_incident (inc : MergedIncident) : Except Unit FinalizedIncident :=
  let ordered := (inc.updates.map (·.2)).insertionSort updLE
  let statuses := ordered.map (·.status)
  let started_at :=
    match ordered.find? (fun u => u.status == "Investigating") with
    | some u => some u.at_
    | none => ordered.head?.map (·.at_)
  let resolved_at :=
    match ordered.reverse.find? (fun u => u.status == "Resolved") with
    | some u => some u.at_
    | none => ordered.getLast?.map (·.at_)
  match parse_impact_window (ordered.map (·.message)) with
  | .error e => .error e
  | .ok iw =>
    let downtime_start :=
      match iw with
      | some w => some w.startSecs
      | none => started_at.map toSecs
    let downtime_end :=
      match iw with
      | some w => some w.endSecs
      | none => resolved_at.map toSecs
    let duration_minutes :=
      match downtime_start, downtime_end with
      | some s, some e => some (Int.fdiv (e - s) 60)
      | _, _ => none
    .ok
      { id := inc.id, entry_id := inc.entry_id, title := inc.title,
        url := inc.url, published_at := inc.published_at,
        updated_at := inc.updated_at, status_sequence := statuses,
        started_at := started_at, resolved_at := resolved_at,
        impact_window := iw, downtime_start := downtime_start,
        downtime_end := downtime_end, duration_minutes := duration_minutes,
        updates := ordered }

/-! ### The since/until window filter -/

/-- `start = incident.get("downtime_start") or incident.get("published_at")`
(`overlaps_window`, instants in place of ISO strings). -/
def window_start (inc : FinalizedIncident) : Option Int :=
  match inc.downtime_start with
  | some s => some s
  | none => inc.published_at.map toSecs

/-- `end = incident.get("downtime_end") or incident.get("updated_at") or
start`. -/
def window_end (inc : FinalizedIncident) : Option Int :=
  match inc.downtime_end with
  | some e => some e
  | none =>
    match inc.updated_at.map toSecs with
    | some u => some u
    | none => window_start inc

/-- `overlaps_window` (extract_incidents.py). -/
def overlaps_window (inc : FinalizedIncident) (since_dt until_dt : Option Int) :
    Bool :=
  if since_dt.isNone && until_dt.isNone then true
  else
    match window_start inc with
    | none => false
    | some s =>
      let e := (window_end inc).getD s
      if (match since_dt with
          | some sv => decide (e < sv)
          | none => false) then false
      else if (match until_dt with
          | some uv => decide (uv < s)
          | none => false) then false
      else true

/-! ### The extraction CLI pipeline -/

/-- One shelled-out git invocation's observable result. -/
structure GitResult where
  returncode : Int
  stdout : String
  stderr : String
deriving DecidableEq, Repr

/-- Python `str.strip()` (ASCII whitespace). -/
def pyStrip (s : String) : String :=
  ⟨(s.data.dropWhile isSpaceC).reverse.dropWhile isSpaceC |>.reverse⟩

/-- `run_git` (extract_incidents.py): raise `RuntimeError` on a nonzero exit
status, else return stdout. -/
def run_git (res : GitResult) : Except String String :=
  if res.returncode ≠ 0 then
    .error (pyOrStr (pyStrip res.stderr) "git command failed")
  else .ok res.stdout

/-- Python `str.splitlines()` restricted to `\n` separators (git's output
format here). -/
def pySplitlines (s : String) : List String :=
  if s = "" then []
  else
    let parts := s.split (· = '\n')
    if s.data.getLast? = some '\n' then parts.dropLast else parts

/-- `[line.strip() for line in commits_raw.splitlines() if line.strip()]`. -/
def gitLogCommits (stdout : String) : List String :=
  ((pySplitlines stdout).map pyStrip).filter (· ≠ "")

/-- `d[k] = v` for the incidents dict of `main`. -/
def dictInsertInc (m : List (String × MergedIncident)) (k : String)
    (v : MergedIncident) : List (String × MergedIncident) :=
  if (m.find? fun p => p.1 == k).isSome then
    m.map fun p => if p.1 == k then (k, v) else p
  else m ++ [(k, v)]

/-- The sort key of `finalized.sort(key=lambda item: item["published_at"] or
"")`: on the fixed-width ISO strings this is chronological order with absent
timestamps first. -/
def pubLEb (a b : FinalizedIncident) : Bool :=
  match a.published_at, b.published_at with
  | none, _ => true
  | some _, none => false
  | some x, some y => toSecs x ≤ toSecs y

/-- Propositional form of `pubLEb`, for `List.insertionSort`. -/
def pubLE (a b : FinalizedIncident) : Prop := pubLEb a b = true

instance : DecidableRel pubLE := fun a b =>
  inferInstanceAs (Decidable (pubLEb a b = true))

/-- The extraction CLI pipeline of `main` (extract_incidents.py) from the
`git log` call through the since/until filter, at the default values of the
remaining options (no enrichment; component inference skipped because the
model is unavailable).  Inputs that reach the program from outside are
parameters: the Atom parser's output per snapshot (`parseAtom`, the XML
layer is not modelled), the `git log` result, and the `git show` result per
commit.  Writing is modelled by returning the finalized list: a returned
`.ok` list means the run completes and reports `Wrote N incidents`;
`.error` models the uncaught exception that aborts the run. -/
def runExtractionCore (parseAtom : String → List RawEntry) (gitLog : GitResult)
    (gitShow : String → GitResult) (since_dt until_dt : Option Int) :
    Except String (List FinalizedIncident) := do
  let commitsRaw ← run_git gitLog
  let commits := (gitLogCommits commitsRaw).reverse
  let incidents := commits.foldl
    (fun (m : List (String × MergedIncident)) sha =>
      match run_git (gitShow sha) with
      | .error _ => m
      | .ok content =>
        (parseAtom content).foldl
          (fun m entry =>
            let existing := ((m.find? fun p => p.1 == entry.id).map (·.2))
            dictInsertInc m entry.id (merge_incident existing entry))
          m)
    []
  let finalized ← (incidents.map (·.2)).mapM
    (fun inc => (finalize_incident inc).mapError fun _ => "ValueError")
  let finalized := finalized.insertionSort pubLE
  if since_dt.isSome || until_dt.isSome then
    pure (finalized.filter fun i => overlaps_window i since_dt until_dt)
  else
    pure finalized

/-! ### Impact enrichment (`enrich_impacts`)

The HTTP fetch and the two HTML extractors are the boundary to the outside
world; they enter as parameters (`fetch` errors model the caught
`URLError`/`HTTPError`).  The cache is the insertion-ordered dict obtained
from `load_impact_cache`; `save_impact_cache` persists the returned dict. -/

/-- One impact-cache item: `{"impact": ..., "components": ...,
"fetched_at": ...}` with JSON `null`/missing as `none`. -/
structure CacheEntry where
  impact : Option String
  components : Option (List String)
  fetched_at : String
deriving DecidableEq, Repr

/-- Environment of one enrichment run. -/
structure EnrichEnv where
  fetch : String → Except Unit String
  extractImpact : String → Option String
  extractComponents : String → Option (List String)
  now : String

/-- Python truthiness of `cached.get("impact")`. -/
def truthyStr : Option String → Bool
  | some s => s ≠ ""
  | none => false

/-- Python truthiness of a `components` value. -/
def truthyList : Option (List String) → Bool
  | some l => l ≠ []
  | none => false

/-- Cache lookup by URL. -/
def cacheFind (cache : List (String × CacheEntry)) (url : String) :
    Option CacheEntry :=
  (cache.find? fun p => p.1 == url).map (·.2)

/-- `cache[url] = entry`. -/
def cacheInsert (cache : List (String × CacheEntry)) (url : String)
    (entry : CacheEntry) : List (String × CacheEntry) :=
  if (cache.find? fun p => p.1 == url).isSome then
    cache.map fun p => if p.1 == url then (url, entry) else p
  else cache ++ [(url, entry)]

/-- The body of the `for incident in incidents` loop of `enrich_impacts`,
for one incident: returns the (possibly) enriched incident, the new cache,
and whether a network fetch was attempted for this incident. -/
def enrich_step (env : EnrichEnv) (cache : List (String × CacheEntry))
    (inc : FinalizedIncident) :
    FinalizedIncident × List (String × CacheEntry) × Bool :=
  match inc.url with
  | none => (inc, cache, false)
  | some url =>
    if url = "" then (inc, cache, false)
    else
      let cached := cacheFind cache url
      let inc :=
        match cached with
        | some c =>
          let inc :=
            if truthyStr c.impact then { inc with impact := c.impact } else inc
          if truthyList c.components then { inc with components := c.components }
          else inc
        | none => inc
      if (match cached with
          | some c => truthyStr c.impact && c.components.isSome
          | none => false) then
        (inc, cache, false)
      else
        match env.fetch url with
        | .error _ => (inc, cache, true)
        | .ok htmlText =>
          let impact := env.extractImpact htmlText
          let components := env.extractComponents htmlText
          let inc := if truthyStr impact then { inc with impact := impact } else inc
          let inc :=
            if truthyList components then { inc with components := components }
            else inc
          (inc, cacheInsert cache url ⟨impact, components, env.now⟩, true)

/-- `enrich_impacts` (extract_incidents.py) over the incident list: the
final incidents, final cache, and the per-incident fetch-attempt flags. -/
def enrich_impacts (env : EnrichEnv) (cache : List (String × CacheEntry))
    (incidents : List FinalizedIncident) :
    List FinalizedIncident × List (String × CacheEntry) × List Bool :=
  incidents.foldl
    (fun acc inc =>
      let step := enrich_step env acc.2.1 inc
      (acc.1 ++ [step.1], step.2.1, acc.2.2 ++ [step.2.2]))
    ([], cache, [])

/-! ### The evaluation CLI (`run_gliner_experiment`)

The GLiNER2 model's `extract_entities` call and the regex engine used on the
alias patterns are the external boundary; they enter as parameters.
Confidence scores are embedded as rationals (the comparisons the source
performs on them are exact at the values used here). -/

/-- An update as read back from the incidents JSONL. -/
structure EvalUpdate where
  status : Option String
  message : Option String
deriving DecidableEq, Repr

/-- An incident as read back from the incidents JSONL (the fields this CLI
consults). -/
structure EvalIncident where
  id : Option String
  url : Option String
  title : Option String
  components : Option (List String)
  components_source : Option String
  updates : List EvalUpdate
deriving DecidableEq, Repr

/-- `incident_text` (run_gliner_experiment.py): the title plus every
non-Resolved update message, stripped, blank parts dropped, joined with
single spaces. -/
def incident_text (inc : EvalIncident) : String :=
  let parts := [inc.title.getD ""] ++
    (inc.updates.filterMap fun u =>
      if u.status == some "Resolved" then none
      else match u.message with
        | some m => if m ≠ "" then some m else none
        | none => none)
  String.intercalate " " ((parts.map pyStrip).filter (· ≠ ""))

/-- `COMPONENT_ALIASES` (extract_incidents.py): label to alias regex
patterns (pattern texts kept verbatim; the regex engine is a parameter). -/
def COMPONENT_ALIASES : List (String × List String) :=
  [("Git Operations", ["\\bgit operations?\\b", "\\bgit (push|pull|fetch|clone)\\b", "\\bgit\\b"]),
   ("Webhooks", ["\\bwebhooks?\\b"]),
   ("API Requests", ["\\bapi requests?\\b", "\\bgithub api\\b", "\\brest api\\b", "\\bgraphql\\b", "\\bapi rate\\b"]),
   ("Issues", ["\\bgithub issues\\b", "\\bissues and pull requests\\b", "\\bissue creation\\b", "\\bissue comments?\\b", "\\bissues tab\\b", "\\bissues page\\b"]),
   ("Pull Requests", ["\\bpull requests?\\b", "\\bprs?\\b", "\\bmerge (pull|requests?)\\b"]),
   ("Actions", ["\\bgithub actions\\b", "\\bworkflow runs?\\b", "\\bworkflow\\b", "\\bactions\\b"]),
   ("Packages", ["\\bpackage registry\\b", "\\bcontainer registry\\b", "\\bpackages?\\b"]),
   ("Pages", ["\\bgithub pages\\b", "\\bpages build\\b", "\\bpages\\b"]),
   ("Codespaces", ["\\bcodespaces?\\b"]),
   ("Copilot", ["\\bcopilot\\b"])]

/-- `COMPONENT_ALIASES.get(label, [])`. -/
def aliasPatterns (label : String) : List String :=
  ((COMPONENT_ALIASES.find? fun p => p.1 == label).map (·.2)).getD []

/-- The model's entity output: per label, the matched spans' confidence
values (`none` for a span without an explicit confidence). -/
def Entities : Type := List (String × List (Option ℚ))

/-- `select_components_from_entities` (extract_incidents.py): per label the
maximum span confidence (`1.0` when no span carries one), selected when it
meets the threshold; `(selected or None, confidences)`. -/
def select_components_from_entities (entities : Entities) (threshold : ℚ) :
    Option (List String) × List (String × ℚ) :=
  if entities.isEmpty then (none, [])
  else
    let folded := entities.foldl
      (fun (acc : List String × List (String × ℚ)) p =>
        if p.2.isEmpty then acc
        else
          let maxConf := p.2.foldl
            (fun (m : Option ℚ) c =>
              match c with
              | some v => some (max (m.getD 0) v)
              | none => m)
            none
          let mc := maxConf.getD 1
          let confs := acc.2 ++ [(p.1, mc)]
          if threshold ≤ mc then (acc.1 ++ [p.1], confs) else (acc.1, confs))
      ([], [])
    ((if folded.1.isEmpty then none else some folded.1), folded.2)

/-- `filter_components_by_alias` (extract_incidents.py); `reSearch pat text`
is `re.search(pat, text, re.IGNORECASE) is not None`. -/
def filter_components_by_alias (reSearch : String → String → Bool)
    (components : Option (List String)) (text : String) :
    Option (List String) :=
  match components with
  | none => none
  | some comps =>
    if comps.isEmpty ∨ text = "" then none
    else
      let matched := comps.filter fun label =>
        (aliasPatterns label).any fun pattern => reSearch pattern text
      if matched.isEmpty then none else some matched

/-- `find_evidence` (run_gliner_experiment.py); `searchSpan pat text` is the
`(start, end)` span of `re.search(pat, text, re.IGNORECASE)`. -/
def find_evidence (searchSpan : String → String → Option (Nat × Nat))
    (text : String) (label : String) : Option String :=
  (aliasPatterns label).findSome? fun pattern =>
    (searchSpan pattern text).map fun sp =>
      let start := sp.1 - 40
      let stop := min (sp.2 + 40) text.data.length
      String.mk ((text.data.drop start).take (stop - start))

/-- The external boundary of the evaluation CLI. -/
structure GlinerEnv where
  extractEntities : String → Entities
  reSearch : String → String → Bool
  searchSpan : String → String → Option (Nat × Nat)

/-- `infer_components` (run_gliner_experiment.py): empty text short-circuits
(the model is not invoked), otherwise select by confidence and corroborate
by alias. -/
def infer_components (env : GlinerEnv) (text : String) (threshold : ℚ) :
    List String × List (String × Option ℚ) :=
  if text = "" then ([], [])
  else
    let entities := env.extractEntities text
    let sel := select_components_from_entities entities threshold
    match filter_components_by_alias env.reSearch sel.1 text with
    | none => ([], [])
    | some comps =>
      (comps, comps.map fun label =>
        (label, (sel.2.find? fun p => p.1 == label).map (·.2)))

/-- One line of the audit JSONL. -/
structure AuditRecord where
  id : Option String
  url : Option String
  title : Option String
  components : List String
  components_confidence : List (String × Option ℚ)
  evidence : List (String × Option String)
deriving Repr

/-- The audit loop of `main` (run_gliner_experiment.py, the first
`for inc in incidents` loop): returns the audit records written and the
texts on which the model was invoked. -/
def audit_pass (env : GlinerEnv) (threshold : ℚ)
    (incidents : List EvalIncident) : List AuditRecord × List String :=
  incidents.foldl
    (fun (acc : List AuditRecord × List String) inc =>
      if truthyList inc.components && !(inc.components_source == some "gliner2") then
        acc
      else
        let text := incident_text inc
        let calls := if text = "" then acc.2 else acc.2 ++ [text]
        let inferred := infer_components env text threshold
        if inferred.1.isEmpty then (acc.1, calls)
        else
          let evidence := inferred.1.map fun label =>
            (label, find_evidence env.searchSpan text label)
          (acc.1 ++
            [⟨inc.id, inc.url, inc.title, inferred.1, inferred.2, evidence⟩],
           calls))
    ([], [])

/-! ### Concrete fixtures used by witnesses and counterexamples -/

/-- A timestamp shared by the tie-break fixtures. -/
def tieAt : DT := ⟨2026, 1, 1, 22, 31, 0⟩

/-- Fixture update: `Update` status, first message text. -/
def c4u1 : Update := ⟨tieAt, "Update", "first message"⟩

/-- Fixture update: same timestamp and status as `c4u1`, different text. -/
def c4u2 : Update := ⟨tieAt, "Update", "second message"⟩

/-- Fixture entry carrying `c4u1`. -/
def c4e1 : RawEntry :=
  ⟨"inc-1", "tag/inc-1", "Incident", none, none, none, [c4u1]⟩

/-- Fixture entry carrying `c4u2` (same incident id). -/
def c4e2 : RawEntry :=
  ⟨"inc-1", "tag/inc-1", "Incident", none, none, none, [c4u2]⟩

/-- Fixture entry with three same-timestamp updates of statuses
Update/Investigating/Resolved (the §8.5 ordering example). -/
def c8e : RawEntry :=
  ⟨"order-test", "order-test", "Ordering test", none,
   some ⟨2026, 1, 1, 22, 0, 0⟩, some ⟨2026, 1, 1, 22, 0, 0⟩,
   [⟨tieAt, "Update", "Update text."⟩,
    ⟨tieAt, "Investigating", "Investigation started."⟩,
    ⟨tieAt, "Resolved", "Resolved."⟩]⟩

/-- The finalized form of `c8e` (checked by evaluation in `c8` below). -/
def c8fin : FinalizedIncident :=
  { id := "order-test", entry_id := "order-test", title := "Ordering test",
    url := none,
    published_at := some ⟨2026, 1, 1, 22, 0, 0⟩,
    updated_at := some ⟨2026, 1, 1, 22, 0, 0⟩,
    status_sequence := ["Investigating", "Update", "Resolved"],
    started_at := some tieAt, resolved_at := some tieAt,
    impact_window := none,
    downtime_start := some 1767306660, downtime_end := some 1767306660,
    duration_minutes := some 0,
    updates := [⟨tieAt, "Investigating", "Investigation started."⟩,
                ⟨tieAt, "Update", "Update text."⟩,
                ⟨tieAt, "Resolved", "Resolved."⟩] }

/-- Fixture entry whose last Resolved update (10:00:00) precedes its first
Investigating update (10:01:30), with no postmortem sentence. -/
def c10e : RawEntry :=
  ⟨"i10", "t10", "T10", none, none, none,
   [⟨⟨2025, 1, 1, 10, 0, 0⟩, "Resolved", "done"⟩,
    ⟨⟨2025, 1, 1, 10, 1, 30⟩, "Investigating", "looking"⟩]⟩

/-- The finalized form of `c10e` (checked by evaluation in `c10` below):
downtime runs backwards and the duration is a negative floor. -/
def c10fin : FinalizedIncident :=
  { id := "i10", entry_id := "t10", title := "T10", url := none,
    published_at := none, updated_at := none,
    status_sequence := ["Resolved", "Investigating"],
    started_at := some ⟨2025, 1, 1, 10, 1, 30⟩,
    resolved_at := some ⟨2025, 1, 1, 10, 0, 0⟩,
    impact_window := none,
    downtime_start := some 1735725690, downtime_end := some 1735725600,
    duration_minutes := some (-2),
    updates := [⟨⟨2025, 1, 1, 10, 0, 0⟩, "Resolved", "done"⟩,
                ⟨⟨2025, 1, 1, 10, 1, 30⟩, "Investigating", "looking"⟩] }

/-- Fixture incident for the window filter: downtime
2025-01-10T00:00Z–02:00Z. -/
def incW : FinalizedIncident :=
  { id := "w", entry_id := "w", title := "W", url := none,
    published_at := some ⟨2025, 1, 10, 0, 0, 0⟩,
    updated_at := some ⟨2025, 1, 10, 2, 0, 0⟩,
    status_sequence := [], started_at := none, resolved_at := none,
    impact_window := none,
    downtime_start := some (toSecs ⟨2025, 1, 10, 0, 0, 0⟩),
    downtime_end := some (toSecs ⟨2025, 1, 10, 2, 0, 0⟩),
    duration_minutes := none, updates := [] }

/-- Enrichment environment fixture: a succeeding fetch whose page yields a
`major` impact and no component list. -/
def c2env : EnrichEnv :=
  ⟨fun _ => .ok "<html>", fun _ => some "major", fun _ => none,
   "2025-06-01T00:00:00Z"⟩

/-- Incident fixture with a detail URL and no enrichment data yet. -/
def c2inc : FinalizedIncident :=
  { id := "i", entry_id := "t", title := "T", url := some "https://u",
    published_at := none, updated_at := none, status_sequence := [],
    started_at := none, resolved_at := none, impact_window := none,
    downtime_start := none, downtime_end := none, duration_minutes := none,
    updates := [] }

/-- Cache fixture: impact present, components recorded as absent (null). -/
def c2cacheNull : List (String × CacheEntry) :=
  [("https://u", ⟨some "major", none, "2025-05-01T00:00:00Z"⟩)]

/-- Cache fixture: impact present, components recorded as an empty list. -/
def c2cacheEmpty : List (String × CacheEntry) :=
  [("https://u", ⟨some "major", some [], "2025-05-01T00:00:00Z"⟩)]

/-- Evaluation-CLI environment fixture: the model reports an `Actions` span
at confidence 9/10 and every alias search succeeds at span (0, 6). -/
def c3env : GlinerEnv :=
  ⟨fun _ => [("Actions", [some (mkRat 9 10)])], fun _ _ => true,
   fun _ _ => some (0, 6)⟩

/-- Incident fixture already carrying machine-inferred (`gliner2`)
components. -/
def c3incMachine : EvalIncident :=
  ⟨some "i1", none, some "GitHub Actions degraded", some ["Actions"],
   some "gliner2", []⟩

/-- Incident fixture carrying explicit (non-machine) components. -/
def c3incExplicit : EvalIncident :=
  ⟨some "i2", none, some "GitHub Actions degraded", some ["Actions"],
   some "html", []⟩

/-- Reference instant for the year-inference example (2025-01-02T12:00Z). -/
def refW : DT := ⟨2025, 1, 2, 12, 0, 0⟩

/-- Expected resolution of Dec 31 23:00 against `refW`. -/
def dtW : DT := ⟨2024, 12, 31, 23, 0, 0⟩

/-- The §8.2 postmortem sentence (cross-midnight window). -/
def c6msg : String :=
  "On January 13, 2025, between 23:35 UTC and 00:24 UTC all Git operations were unavailable."

/-- The window parsed from `c6msg`: 2025-01-13T23:35:00Z to
2025-01-14T00:24:00Z (midnight rollover). -/
def c6win : Window := ⟨1736811300, 1736814240, c6msg⟩

/-- Filter lower bound 2025-01-09T00:00Z. -/
def sinceW : Option Int := some (toSecs ⟨2025, 1, 9, 0, 0, 0⟩)

/-- Filter upper bound 2025-01-11T00:00Z. -/
def untilW : Option Int := some (toSecs ⟨2025, 1, 11, 0, 0, 0⟩)

/-! ### Theorems -/

/-- Claim C1 counterexample: with an empty revision listing (`git log`
exits 0 and prints nothing) the extraction CLI does not abort — it
completes successfully and writes an empty incident list. -/
theorem c1_counterexample :
    runExtractionCore (fun _ => []) ⟨0, "", ""⟩ (fun _ => ⟨0, "", ""⟩)
      none none = .ok [] := by
  decide

/-- Claim C1 (amended): when the tracked path has no version-control history
(the `git log` call exits 0 and the revision listing is empty), the
extraction CLI does not fail: it proceeds past the history step and
completes the run with zero incidents written.  (A fatal `RuntimeError`
abort happens only when the git invocation itself exits nonzero.) -/
theorem runExtraction_empty_history (parseAtom : String → List RawEntry)
    (gitShow : String → GitResult) (log : GitResult)
    (h0 : log.returncode = 0) (hempty : gitLogCommits log.stdout = []) :
    runExtractionCore parseAtom log gitShow none none = .ok [] := by
  have h1 : run_git log = .ok log.stdout := by simp [run_git, h0]
  simp [runExtractionCore, h1, hempty, List.mapM, List.mapM.loop,
    List.insertionSort, Bind.bind, Except.bind, Pure.pure, Except.pure]

/-- Witness for `runExtraction_empty_history` at a concrete git result. -/
theorem runExtraction_empty_history_witness :
    (1 : Int) - 1 = 0 ∧ gitLogCommits "" = [] ∧
    runExtractionCore (fun _ => []) ⟨1 - 1, "", "err"⟩ (fun _ => ⟨0, "", ""⟩)
      none none = .ok [] :=
  ⟨by decide, by decide,
   runExtraction_empty_history (fun _ => []) (fun _ => ⟨0, "", ""⟩)
     ⟨1 - 1, "", "err"⟩ (by decide) (by decide)⟩

/-- Claim C2 counterexample: the on-disk cache holds an entry for the
incident's URL with a non-absent impact (`"major"`) and a components value
legitimately recorded as absent (null), yet `enrich_impacts` attempts a
network fetch for that incident. -/
theorem c2_counterexample :
    (enrich_step c2env c2cacheNull c2inc).2.2 = true ∧
    cacheFind c2cacheNull "https://u" =
      some ⟨some "major", none, "2025-05-01T00:00:00Z"⟩ := by
  decide

/-- Claim C2 (amended): for a finalized incident with a detail URL, the
enrichment client reuses the cached entry and performs no network fetch iff
the cached entry has a truthy impact and a components value that is
*non-null* (an empty list qualifies; a components value recorded as absent —
null, which is how the code itself records an extraction that found nothing
— forces a refetch).  On such a cache hit the cached impact is copied onto
the incident and the cache is left unchanged. -/
theorem enrich_step_cache_hit (env : EnrichEnv)
    (cache : List (String × CacheEntry)) (inc : FinalizedIncident)
    (url : String) (c : CacheEntry)
    (hu : inc.url = some url) (hne : url ≠ "")
    (hc : cacheFind cache url = some c)
    (hi : truthyStr c.impact = true) (hcomp : c.components.isSome = true) :
    (enrich_step env cache inc).2.2 = false ∧
    (enrich_step env cache inc).2.1 = cache ∧
    (enrich_step env cache inc).1.impact = c.impact := by
  simp only [enrich_step, hu, hc, hi, hcomp, if_neg (by simp [hne] : ¬url = ""),
    Bool.and_self, truthyStr] at *
  cases hci : c.impact with
  | none => simp [truthyStr, hci] at hi
  | some s =>
    simp only [truthyStr, hci] at hi
    simp [hci, hi, truthyList]
    split <;> simp

/-- Witness for `enrich_step_cache_hit`: a cache entry whose components were
recorded as an empty list short-circuits the fetch. -/
theorem enrich_step_cache_hit_witness :
    c2inc.url = some "https://u" ∧ "https://u" ≠ "" ∧
    cacheFind c2cacheEmpty "https://u" =
      some ⟨some "major", some [], "2025-05-01T00:00:00Z"⟩ ∧
    truthyStr (some "major") = true ∧
    (Option.some ([] : List String)).isSome = true ∧
    ((enrich_step c2env c2cacheEmpty c2inc).2.2 = false ∧
     (enrich_step c2env c2cacheEmpty c2inc).2.1 = c2cacheEmpty ∧
     (enrich_step c2env c2cacheEmpty c2inc).1.impact = some "major") :=
  ⟨by decide, by decide, by decide, by decide, by decide,
   enrich_step_cache_hit c2env c2cacheEmpty c2inc "https://u"
     ⟨some "major", some [], "2025-05-01T00:00:00Z"⟩
     (by decide) (by decide) (by decide) (by decide) (by decide)⟩

/-- Claim C3 counterexample: an incident whose non-empty component list has
provenance `"gliner2"` is *not* skipped by the audit pass — the model is
invoked on its text and an audit record is written for it. -/
theorem c3_counterexample :
    (audit_pass c3env (mkRat 3 4) [c3incMachine]).1.length = 1 ∧
    (audit_pass c3env (mkRat 3 4) [c3incMachine]).2 =
      ["GitHub Actions degraded"] := by
  decide

/-- Claim C3 (amended): the audit pass skips exactly the incidents carrying
explicit components (a non-empty component list whose provenance tag is not
`"gliner2"`): for those, inference is not run and no audit record is
written.  Incidents already carrying machine-inferred (`gliner2`) components
are re-inferred and audited like untagged ones. -/
theorem audit_pass_skips_explicit (env : GlinerEnv) (threshold : ℚ)
    (inc : EvalIncident)
    (hc : truthyList inc.components = true)
    (hs : inc.components_source ≠ some "gliner2") :
    audit_pass env threshold [inc] = ([], []) := by
  have hbeq : (inc.components_source == some "gliner2") = false := by
    cases h : inc.components_source == some "gliner2"
    · rfl
    · exact absurd (eq_of_beq h) hs
  simp only [audit_pass, List.foldl_cons, List.foldl_nil, hc, hbeq,
    Bool.not_false, Bool.and_self, if_true]

/-- Witness for `audit_pass_skips_explicit` at an incident with explicit
(`"html"`-sourced) components. -/
theorem audit_pass_skips_explicit_witness :
    truthyList c3incExplicit.components = true ∧
    c3incExplicit.components_source ≠ some "gliner2" ∧
    audit_pass c3env (mkRat 3 4) [c3incExplicit] = ([], []) :=
  ⟨by decide, by decide,
   audit_pass_skips_explicit c3env (mkRat 3 4) c3incExplicit (by decide) (by decide)⟩

/-- Claim C10: merging `c10e` (no postmortem sentence; its last Resolved
update precedes its first Investigating update in finalized order) and
finalizing produces a downtime_end earlier than downtime_start and a
negative `duration_minutes` equal to the floor of the negative elapsed
seconds divided by 60 — duration is not guaranteed non-negative. -/
theorem c10 :
    finalize_incident (merge_incident none c10e) = .ok c10fin ∧
    c10fin.impact_window = none ∧
    c10fin.downtime_start = some 1735725690 ∧
    c10fin.downtime_end = some 1735725600 ∧
    (1735725600 : Int) < 1735725690 ∧
    c10fin.duration_minutes = some (Int.fdiv (1735725600 - 1735725690) 60) ∧
    Int.fdiv ((1735725600 : Int) - 1735725690) 60 = -2 := by
  refine ⟨by decide, by decide, by decide, by decide, by decide, ?_, by decide⟩
  decide


instance : IsTotal (Nat × DT) (fun a b => a.1 ≤ b.1) :=
  ⟨fun a b => Nat.le_total a.1 b.1⟩

instance : IsTrans (Nat × DT) (fun a b => a.1 ≤ b.1) :=
  ⟨fun _ _ _ h1 h2 => Nat.le_trans h1 h2⟩

/-- Inversion of a successful `datetime` construction. -/
theorem tryMkDT_eq_some {y : Int} {mo d hr mi s : Nat} {t : DT}
    (h : tryMkDT y mo d hr mi s = some t) :
    t = ⟨y, mo, d, hr, mi, s⟩ ∧ validDT ⟨y, mo, d, hr, mi, s⟩ = true := by
  by_cases hv : validDT ⟨y, mo, d, hr, mi, s⟩ = true
  · refine ⟨?_, hv⟩
    simp only [tryMkDT, hv, if_true, Option.some.injEq] at h
    exact h.symm
  · simp only [tryMkDT, Bool.not_eq_true] at h hv
    rw [hv] at h
    simp at h

/-- Claim C5: a successful `infer_year` result is a constructible candidate
among years {reference − 1, reference, reference + 1} whose absolute
distance from the reference instant is minimal over all constructible
candidates. -/
theorem infer_year_nearest (ref : DT) (month day hour minute : Nat) (t : DT)
    (h : infer_year ref month day hour minute = some t) :
    (∃ y ∈ [ref.year - 1, ref.year, ref.year + 1],
      tryMkDT y month day hour minute 0 = some t) ∧
    (∀ y ∈ [ref.year - 1, ref.year, ref.year + 1], ∀ u,
      tryMkDT y month day hour minute 0 = some u →
      (toSecs t - toSecs ref).natAbs ≤ (toSecs u - toSecs ref).natAbs) := by
  unfold infer_year at h
  simp only [] at h
  set cands := ([ref.year - 1, ref.year, ref.year + 1]).filterMap
    (fun y => (tryMkDT y month day hour minute 0).map
      (fun dt => ((toSecs dt - toSecs ref).natAbs, dt))) with hcands
  cases hs : cands.insertionSort (fun a b => a.1 ≤ b.1) with
  | nil => rw [hs] at h; simp at h
  | cons p l =>
    rw [hs] at h
    simp only [List.head?_cons, Option.map_some'] at h
    have hpc : p ∈ cands :=
      (List.perm_insertionSort _ cands).subset (hs ▸ List.mem_cons_self p l)
    rw [hcands, List.mem_filterMap] at hpc
    obtain ⟨y, hy, hmap⟩ := hpc
    cases htry : tryMkDT y month day hour minute 0 with
    | none => rw [htry] at hmap; simp at hmap
    | some dt =>
      rw [htry] at hmap
      simp only [Option.map_some', Option.some.injEq] at hmap
      have hpt : p.2 = t := Option.some.inj h
      have ht : t = dt := by rw [← hpt, ← hmap]
      have hp1 : p.1 = (toSecs t - toSecs ref).natAbs := by rw [← hmap, ht]
      constructor
      · exact ⟨y, hy, by rw [htry, ht]⟩
      · intro y2 hy2 u htry2
        have humem : ((toSecs u - toSecs ref).natAbs, u) ∈ cands := by
          rw [hcands, List.mem_filterMap]
          exact ⟨y2, hy2, by rw [htry2]; rfl⟩
        have humem2 : ((toSecs u - toSecs ref).natAbs, u) ∈ p :: l :=
          hs ▸ (List.perm_insertionSort _ cands).symm.subset humem
        have hsorted : (p :: l).Sorted (fun a b : Nat × DT => a.1 ≤ b.1) :=
          hs ▸ List.sorted_insertionSort _ cands
        rcases List.mem_cons.mp humem2 with heq | hmem
        · rw [← hp1, ← heq]
        · have := List.rel_of_sorted_cons hsorted _ hmem
          rw [hp1] at this
          exact this

/-- Witness for `infer_year_nearest`: reference 2025-01-02T12:00Z with
candidate Dec 31 23:00 resolves to 2024-12-31T23:00Z. -/
theorem infer_year_nearest_witness :
    infer_year refW 12 31 23 0 = some dtW ∧
    ((∃ y ∈ [(2024 : Int), 2025, 2026], tryMkDT y 12 31 23 0 0 = some dtW) ∧
     (∀ y ∈ [(2024 : Int), 2025, 2026], ∀ u, tryMkDT y 12 31 23 0 0 = some u →
        (toSecs dtW - toSecs refW).natAbs ≤ (toSecs u - toSecs refW).natAbs)) :=
  ⟨by decide, infer_year_nearest refW 12 31 23 0 dtW (by decide)⟩

/-- Same-date instants lie within one day of each other. -/
theorem toSecs_same_date (y : Int) (mo d h1 m1 h2 m2 : Nat)
    (hv1 : validDT ⟨y, mo, d, h1, m1, 0⟩ = true)
    (hv2 : validDT ⟨y, mo, d, h2, m2, 0⟩ = true) :
    toSecs ⟨y, mo, d, h1, m1, 0⟩ - toSecs ⟨y, mo, d, h2, m2, 0⟩ < 86400 ∧
    -86400 < toSecs ⟨y, mo, d, h1, m1, 0⟩ - toSecs ⟨y, mo, d, h2, m2, 0⟩ := by
  simp only [validDT, Bool.and_eq_true, decide_eq_true_eq] at hv1 hv2
  simp only [toSecs]
  omega

/-- The window construction on one matched sentence: end strictly follows
start, and the end is advanced by exactly one day iff the parsed end time
does not exceed the start time. -/
theorem buildWindow_spec (f : ImpactFields) (msg : String) (w : Window)
    (h : buildWindow f msg = .ok w) :
    w.startSecs < w.endSecs ∧
    ∃ sdt edt, tryMkDT f.year f.month f.day f.sh f.sm 0 = some sdt ∧
      tryMkDT f.year f.month f.day f.eh f.em 0 = some edt ∧
      w.startSecs = toSecs sdt ∧
      ((toSecs edt ≤ toSecs sdt ∧ w.endSecs = toSecs edt + 86400) ∨
       (toSecs sdt < toSecs edt ∧ w.endSecs = toSecs edt)) := by
  unfold buildWindow at h
  cases h1 : tryMkDT f.year f.month f.day f.sh f.sm 0 with
  | none => rw [h1] at h; simp at h
  | some sdt =>
    cases h2 : tryMkDT f.year f.month f.day f.eh f.em 0 with
    | none => rw [h1, h2] at h; simp at h
    | some edt =>
      rw [h1, h2] at h
      simp only [Except.ok.injEq] at h
      obtain ⟨hsdt, hv1⟩ := tryMkDT_eq_some h1
      obtain ⟨hedt, hv2⟩ := tryMkDT_eq_some h2
      have hbound := toSecs_same_date f.year f.month f.day f.eh f.em f.sh f.sm
        (by rw [← hedt]; exact hedt ▸ hv2) (by rw [← hsdt]; exact hsdt ▸ hv1)
      rw [← hedt, ← hsdt] at hbound
      subst h
      constructor
      · by_cases hle : toSecs edt ≤ toSecs sdt
        · simp only [if_pos hle]; omega
        · simp only [if_neg hle]; omega
      · refine ⟨sdt, edt, rfl, rfl, rfl, ?_⟩
        by_cases hle : toSecs edt ≤ toSecs sdt
        · exact Or.inl ⟨hle, by simp [if_pos hle]⟩
        · exact Or.inr ⟨by omega, by simp [if_neg hle]⟩

/-- Claim C6: whenever `parse_impact_window` succeeds with a window, the
end is strictly after the start; and the end equals the parsed end instant
advanced by exactly one day when that instant does not exceed the start,
else the parsed end instant itself. -/
theorem parse_impact_window_spec (messages : List String) (w : Window)
    (h : parse_impact_window messages = .ok (some w)) :
    w.startSecs < w.endSecs ∧
    ∃ (f : ImpactFields) (sdt edt : DT),
      tryMkDT f.year f.month f.day f.sh f.sm 0 = some sdt ∧
      tryMkDT f.year f.month f.day f.eh f.em 0 = some edt ∧
      w.startSecs = toSecs sdt ∧
      ((toSecs edt ≤ toSecs sdt ∧ w.endSecs = toSecs edt + 86400) ∨
       (toSecs sdt < toSecs edt ∧ w.endSecs = toSecs edt)) := by
  induction messages with
  | nil => rw [parse_impact_window] at h; simp at h
  | cons msg rest ih =>
    rw [parse_impact_window] at h
    cases hm1 : impactSearch1 msg with
    | some f =>
      rw [hm1] at h
      simp only [] at h
      cases hb : buildWindow f msg with
      | error e => rw [hb] at h; simp [Except.map] at h
      | ok w2 =>
        rw [hb] at h
        simp only [Except.map, Except.ok.injEq, Option.some.injEq] at h
        subst h
        obtain ⟨hlt, sdt, edt, hrest⟩ := buildWindow_spec f msg w2 hb
        exact ⟨hlt, f, sdt, edt, hrest⟩
    | none =>
      rw [hm1] at h
      simp only [] at h
      cases hm2 : impactSearch2 msg with
      | some f =>
        rw [hm2] at h
        simp only [] at h
        cases hb : buildWindow f msg with
        | error e => rw [hb] at h; simp [Except.map] at h
        | ok w2 =>
          rw [hb] at h
          simp only [Except.map, Except.ok.injEq, Option.some.injEq] at h
          subst h
          obtain ⟨hlt, sdt, edt, hrest⟩ := buildWindow_spec f msg w2 hb
          exact ⟨hlt, f, sdt, edt, hrest⟩
      | none =>
        rw [hm2] at h
        simp only [] at h
        exact ih h

/-- Witness for `parse_impact_window_spec`: the §8.2 sentence parses to the
cross-midnight window 2025-01-13T23:35:00Z–2025-01-14T00:24:00Z. -/
theorem parse_impact_window_spec_witness :
    parse_impact_window [c6msg] = .ok (some c6win) ∧
    (c6win.startSecs < c6win.endSecs ∧
     ∃ (f : ImpactFields) (sdt edt : DT),
       tryMkDT f.year f.month f.day f.sh f.sm 0 = some sdt ∧
       tryMkDT f.year f.month f.day f.eh f.em 0 = some edt ∧
       c6win.startSecs = toSecs sdt ∧
       ((toSecs edt ≤ toSecs sdt ∧ c6win.endSecs = toSecs edt + 86400) ∨
        (toSecs sdt < toSecs edt ∧ c6win.endSecs = toSecs edt))) :=
  ⟨by decide, parse_impact_window_spec [c6msg] c6win (by decide)⟩

/-- Claim C9: with at least one bound given, a finalized incident passes
the window filter iff it has a start (downtime start, else published),
that start is ≤ the until bound when given, and its end (downtime end,
else updated, else the start) is ≥ the since bound when given. -/
theorem overlaps_window_iff (inc : FinalizedIncident)
    (since_dt until_dt : Option Int)
    (h : since_dt.isSome = true ∨ until_dt.isSome = true) :
    overlaps_window inc since_dt until_dt = true ↔
      ∃ s, window_start inc = some s ∧
        (∀ uv, until_dt = some uv → s ≤ uv) ∧
        (∀ sv, since_dt = some sv → sv ≤ (window_end inc).getD s) := by
  unfold overlaps_window
  have hcond : (since_dt.isNone && until_dt.isNone) = false := by
    rcases h with h | h <;> cases since_dt <;> cases until_dt <;> simp_all
  rw [hcond]
  cases hws : window_start inc with
  | none => simp
  | some s =>
    rcases since_dt with _ | sv <;> rcases until_dt with _ | uv <;>
      simp_all <;> constructor <;> intro hx <;> omega

/-- Witness for `overlaps_window_iff`: the §8.7 example — downtime
2025-01-10T00:00–02:00Z overlaps [2025-01-09, 2025-01-11] and does not
overlap a window starting 2025-01-11. -/
theorem overlaps_window_iff_witness :
    overlaps_window incW sinceW untilW = true ∧
    overlaps_window incW (some (toSecs ⟨2025, 1, 11, 0, 0, 0⟩)) none = false ∧
    ((sinceW.isSome = true ∨ untilW.isSome = true) ∧
     (overlaps_window incW sinceW untilW = true ↔
       ∃ s, window_start incW = some s ∧
         (∀ uv, untilW = some uv → s ≤ uv) ∧
         (∀ sv, sinceW = some sv → sv ≤ (window_end incW).getD s))) :=
  ⟨by decide, by decide,
   Or.inl rfl, overlaps_window_iff incW sinceW untilW (Or.inl rfl)⟩

/-! ### Merge-engine lemmas (claims C4 and C7) -/

/-- Replacing the value at one key leaves key membership unchanged. -/
theorem find?_isSome_map_replace (m : List (String × Update)) (k k2 : String)
    (v : Update) :
    ((m.map fun p => if p.1 == k then (k, v) else p).find?
      fun p => p.1 == k2).isSome = (m.find? fun p => p.1 == k2).isSome := by
  induction m with
  | nil => rfl
  | cons q l ih =>
    by_cases hq : (q.1 == k) = true
    · have hqk : q.1 = k := eq_of_beq hq
      by_cases h2 : (k == k2) = true
      · have hqk2 : (q.1 == k2) = true := by rw [hqk]; exact h2
        simp only [List.map_cons, hq, if_true]
        rw [@List.find?_cons_of_pos _ (fun p => p.1 == k2) (k, v) _ h2,
          @List.find?_cons_of_pos _ (fun p => p.1 == k2) q _ hqk2]
        rfl
      · have h2f : (k == k2) = false := by simp_all
        have hqk2 : (q.1 == k2) = false := by rw [hqk]; exact h2f
        simp only [List.map_cons, hq, if_true]
        rw [@List.find?_cons_of_neg _ (fun p => p.1 == k2) (k, v) _ (by simp [h2f]),
          @List.find?_cons_of_neg _ (fun p => p.1 == k2) q _ (by simp [hqk2])]
        exact ih
    · have hqf : (q.1 == k) = false := by simp_all
      simp only [List.map_cons, hqf, Bool.false_eq_true, if_false]
      by_cases h2 : (q.1 == k2) = true
      · rw [@List.find?_cons_of_pos _ (fun p => p.1 == k2) q _ h2,
          @List.find?_cons_of_pos _ (fun p => p.1 == k2) q _ h2]
      · rw [@List.find?_cons_of_neg _ (fun p => p.1 == k2) q _ (by simp [h2]),
          @List.find?_cons_of_neg _ (fun p => p.1 == k2) q _ (by simp [h2])]
        exact ih

/-- Key membership after `setdefault`. -/
theorem hasKey_setdefault (m : List (String × Update)) (k : String)
    (v : Update) (k2 : String) :
    hasKey (setdefault m k v) k2 = (hasKey m k2 || (k == k2)) := by
  unfold setdefault hasKey
  split
  · rename_i h
    by_cases h2 : (k == k2) = true
    · have hk : k = k2 := eq_of_beq h2
      subst hk
      simp [h]
    · simp [h2]
  · rw [List.find?_append]
    cases hm : m.find? fun p => p.1 == k2 with
    | some p => simp [hm]
    | none =>
      simp only [hm, Option.none_or, Option.isSome_none, Bool.false_or]
      by_cases h2 : (k == k2) = true
      · rw [@List.find?_cons_of_pos _ (fun p => p.1 == k2) (k, v) _ h2]
        simp [h2]
      · have h2f : (k == k2) = false := by simp_all
        rw [@List.find?_cons_of_neg _ (fun p => p.1 == k2) (k, v) _ (by simp [h2f])]
        simp [h2f]

/-- Key membership after `d[k] = v`. -/
theorem hasKey_dictInsert (m : List (String × Update)) (k : String)
    (v : Update) (k2 : String) :
    hasKey (dictInsert m k v) k2 = (hasKey m k2 || (k == k2)) := by
  unfold dictInsert hasKey
  split
  · rename_i h
    rw [find?_isSome_map_replace]
    by_cases h2 : (k == k2) = true
    · have hk : k = k2 := eq_of_beq h2
      subst hk
      simp [hasKey] at h
      simp [h]
    · simp [h2]
  · rw [List.find?_append]
    cases hm : m.find? fun p => p.1 == k2 with
    | some p => simp [hm]
    | none =>
      simp only [hm, Option.none_or, Option.isSome_none, Bool.false_or]
      by_cases h2 : (k == k2) = true
      · rw [@List.find?_cons_of_pos _ (fun p => p.1 == k2) (k, v) _ h2]
        simp [h2]
      · have h2f : (k == k2) = false := by simp_all
        rw [@List.find?_cons_of_neg _ (fun p => p.1 == k2) (k, v) _ (by simp [h2f])]
        simp [h2f]

/-- Key membership after the merge loop's `setdefault` fold. -/
theorem hasKey_foldl_setdefault (us : List Update)
    (m : List (String × Update)) (k : String) :
    hasKey (us.foldl (fun m u => setdefault m (update_key u) u) m) k =
      (hasKey m k || us.any fun u => update_key u == k) := by
  induction us generalizing m with
  | nil => simp
  | cons u rest ih =>
    simp only [List.foldl_cons, List.any_cons]
    rw [ih, hasKey_setdefault, Bool.or_assoc]

/-- Key membership in the seed dict comprehension. -/
theorem hasKey_dictOfUpdates (us : List Update) (k : String) :
    hasKey (dictOfUpdates us) k = (us.any fun u => update_key u == k) := by
  have gen : ∀ m, hasKey
      (us.foldl (fun m u => dictInsert m (update_key u) u) m) k =
      (hasKey m k || us.any fun u => update_key u == k) := by
    induction us with
    | nil => intro m; simp
    | cons u rest ih =>
      intro m
      simp only [List.foldl_cons, List.any_cons]
      rw [ih, hasKey_dictInsert, Bool.or_assoc]
  have h0 := gen []
  simp only [dictOfUpdates]
  rw [h0]
  simp [hasKey]

/-- The `setdefault` fold is a no-op when every incoming key is present. -/
theorem foldl_setdefault_noop (us : List Update) (m : List (String × Update))
    (h : ∀ u ∈ us, hasKey m (update_key u) = true) :
    us.foldl (fun m u => setdefault m (update_key u) u) m = m := by
  induction us with
  | nil => rfl
  | cons u rest ih =>
    simp only [List.foldl_cons]
    have hu := h u (List.mem_cons_self _ _)
    have hsd : setdefault m (update_key u) u = m := by
      unfold setdefault
      unfold hasKey at hu
      simp [hu]
    rw [hsd]
    exact ih fun v hv => h v (List.mem_cons_of_mem _ hv)

/-- The update dict of a merge into an existing incident is the `setdefault`
fold of the incoming updates over the existing dict. -/
theorem merge_some_updates (ex : MergedIncident) (e : RawEntry) :
    (merge_incident (some ex) e).updates =
      e.updates.foldl (fun m u => setdefault m (update_key u) u) ex.updates := by
  simp only [merge_incident]
  split <;> split <;> rfl

/-- The published timestamp after a merge into an existing incident. -/
theorem merge_some_published (ex : MergedIncident) (e : RawEntry) :
    (merge_incident (some ex) e).published_at =
      if pubAdopt ex e then e.published_at else ex.published_at := by
  simp only [merge_incident]
  split <;> split <;> rfl

/-- `updAdopt` ignores the published timestamp. -/
theorem updAdopt_pub_set (ex : MergedIncident) (p : Option DT) (e : RawEntry) :
    updAdopt { ex with published_at := p } e = updAdopt ex e := rfl

/-- The updated timestamp after a merge into an existing incident. -/
theorem merge_some_updated (ex : MergedIncident) (e : RawEntry) :
    (merge_incident (some ex) e).updated_at =
      if updAdopt ex e then e.updated_at else ex.updated_at := by
  simp only [merge_incident]
  cases h1 : pubAdopt ex e
  · simp only [Bool.false_eq_true, if_false]
    cases h2 : updAdopt ex e <;> simp [h2]
  · simp only [if_true]
    rw [updAdopt_pub_set]
    cases h2 : updAdopt ex e <;> simp [h2]

/-- After merging an entry, its own published timestamp is never adopted
again. -/
theorem pubAdopt_merge (m : Option MergedIncident) (e : RawEntry) :
    pubAdopt (merge_incident m e) e = false := by
  cases m with
  | none =>
    cases hp : e.published_at with
    | none => simp [merge_incident, pubAdopt, hp]
    | some ip => simp [merge_incident, pubAdopt, hp]
  | some ex =>
    unfold pubAdopt
    cases hp : e.published_at with
    | none => rfl
    | some ip =>
      rw [merge_some_published]
      cases hA : pubAdopt ex e
      · simp only [Bool.false_eq_true, if_false]
        unfold pubAdopt at hA
        rw [hp] at hA
        cases hex : ex.published_at with
        | none => rw [hex] at hA; simp at hA
        | some ep =>
          rw [hex] at hA
          simpa using hA
      · simp [hp]

/-- After merging an entry, its own updated timestamp is never adopted
again. -/
theorem updAdopt_merge (m : Option MergedIncident) (e : RawEntry) :
    updAdopt (merge_incident m e) e = false := by
  cases m with
  | none =>
    cases hu : e.updated_at with
    | none => simp [merge_incident, updAdopt, hu]
    | some iu => simp [merge_incident, updAdopt, hu]
  | some ex =>
    unfold updAdopt
    cases hu : e.updated_at with
    | none => rfl
    | some iu =>
      rw [merge_some_updated]
      cases hA : updAdopt ex e
      · simp only [Bool.false_eq_true, if_false]
        unfold updAdopt at hA
        rw [hu] at hA
        cases hex : ex.updated_at with
        | none => rw [hex] at hA; simp at hA
        | some eu =>
          rw [hex] at hA
          simpa using hA
      · simp [hu]

/-- After merging an entry, every one of its update keys is present. -/
theorem keys_merge (m : Option MergedIncident) (e : RawEntry) :
    ∀ u ∈ e.updates,
      hasKey (merge_incident m e).updates (update_key u) = true := by
  intro u hu
  have hany : (e.updates.any fun v => update_key v == update_key u) = true :=
    List.any_eq_true.mpr ⟨u, hu, beq_self_eq_true _⟩
  cases m with
  | none =>
    show hasKey (dictOfUpdates e.updates) (update_key u) = true
    rw [hasKey_dictOfUpdates]
    exact hany
  | some ex =>
    rw [merge_some_updates, hasKey_foldl_setdefault, hany]
    simp

/-- Claim C7: merging the same raw entry into an existing merged incident a
second time is a no-op — the incident state (all fields and the update map)
is unchanged. -/
theorem merge_incident_idem (m : Option MergedIncident) (e : RawEntry) :
    merge_incident (some (merge_incident m e)) e = merge_incident m e := by
  have hpub := pubAdopt_merge m e
  have hupd := updAdopt_merge m e
  have hkeys := keys_merge m e
  conv_lhs => rw [merge_incident]
  simp only [hpub, hupd, Bool.false_eq_true, if_false]
  rw [foldl_setdefault_noop _ _ hkeys]

/-- Claim C4 counterexample: an incoming update with the same timestamp and
status as a stored update but different message text is added as a second
entry of the update map — the stored update does not remain the only update
for that timestamp+status. -/
theorem c4_counterexample :
    (merge_incident (some (merge_incident none c4e1)) c4e2).updates =
      [(update_key c4u1, c4u1), (update_key c4u2, c4u2)] := by
  decide

/-- Claim C4 (amended): the dedup key is timestamp + status + message, so an
incoming update is added whenever its full key is absent; in particular an
update sharing a stored update's timestamp and status but differing in
message text has a distinct key and is appended (only fully identical
updates collapse). -/
theorem merge_dedup_key_includes_message :
    (∀ (ex : MergedIncident) (e : RawEntry) (u : Update),
      e.updates = [u] → hasKey ex.updates (update_key u) = false →
      (merge_incident (some ex) e).updates = ex.updates ++ [(update_key u, u)]) ∧
    (∀ u v : Update, u.at_ = v.at_ → u.status = v.status →
      u.message ≠ v.message → update_key u ≠ update_key v) := by
  constructor
  · intro ex e u he hk
    rw [merge_some_updates, he]
    simp only [List.foldl_cons, List.foldl_nil]
    unfold setdefault
    unfold hasKey at hk
    simp [hk]
  · intro u v hat hst hmsg hkey
    apply hmsg
    unfold update_key at hkey
    rw [hat, hst] at hkey
    have hd := congrArg String.data hkey
    simp only [String.data_append] at hd
    exact String.ext (List.append_cancel_left hd)

/-- Witness for `merge_dedup_key_includes_message` on the concrete fixture
pair `c4u1`/`c4u2`. -/
theorem merge_dedup_key_includes_message_witness :
    c4e2.updates = [c4u2] ∧
    hasKey (merge_incident none c4e1).updates (update_key c4u2) = false ∧
    (merge_incident (some (merge_incident none c4e1)) c4e2).updates =
      (merge_incident none c4e1).updates ++ [(update_key c4u2, c4u2)] ∧
    c4u1.at_ = c4u2.at_ ∧ c4u1.status = c4u2.status ∧
    c4u1.message ≠ c4u2.message ∧ update_key c4u1 ≠ update_key c4u2 :=
  ⟨rfl, by decide,
   merge_dedup_key_includes_message.1 (merge_incident none c4e1) c4e2 c4u2
     rfl (by decide),
   rfl, rfl, by decide,
   merge_dedup_key_includes_message.2 c4u1 c4u2 rfl rfl (by decide)⟩

/-! ### Finalized ordering (claim C8) -/

/-- `charsLe` is total. -/
theorem charsLe_total : ∀ a b : List Char,
    charsLe a b = true ∨ charsLe b a = true
  | [], _ => Or.inl rfl
  | _ :: _, [] => Or.inr rfl
  | a :: as, b :: bs => by
    rcases Nat.lt_trichotomy a.toNat b.toNat with h | h | h
    · left; simp [charsLe, h]
    · rcases charsLe_total as bs with ih | ih
      · left; simp [charsLe, h, Nat.lt_irrefl, ih]
      · right; simp [charsLe, h, Nat.lt_irrefl, ih]
    · right; simp [charsLe, h]

/-- `charsLe` is transitive. -/
theorem charsLe_trans : ∀ a b c : List Char,
    charsLe a b = true → charsLe b c = true → charsLe a c = true
  | [], _, _, _, _ => rfl
  | _ :: _, [], _, h, _ => by simp [charsLe] at h
  | _ :: _, _ :: _, [], _, h => by simp [charsLe] at h
  | a :: as, b :: bs, c :: cs, h1, h2 => by
    simp only [charsLe] at h1 h2 ⊢
    rcases Nat.lt_trichotomy a.toNat b.toNat with hab | hab | hab <;>
      rcases Nat.lt_trichotomy b.toNat c.toNat with hbc | hbc | hbc
    · simp [show a.toNat < c.toNat by omega]
    · simp [show a.toNat < c.toNat by omega]
    · rw [if_neg (by omega), if_pos (by omega)] at h2
      exact absurd h2 (by simp)
    · simp [show a.toNat < c.toNat by omega]
    · rw [if_neg (by omega), if_neg (by omega)] at h1 h2
      rw [if_neg (by omega), if_neg (by omega)]
      exact charsLe_trans as bs cs h1 h2
    · rw [if_neg (by omega), if_pos (by omega)] at h2
      exact absurd h2 (by simp)
    · rw [if_neg (by omega), if_pos (by omega)] at h1
      exact absurd h1 (by simp)
    · rw [if_neg (by omega), if_pos (by omega)] at h1
      exact absurd h1 (by simp)
    · rw [if_neg (by omega), if_pos (by omega)] at h1
      exact absurd h1 (by simp)

instance : IsTotal Update updLE :=
  ⟨fun a b => by
    unfold updLE
    rcases Int.lt_trichotomy (toSecs a.at_) (toSecs b.at_) with h | h | h
    · exact Or.inl (Or.inl h)
    · rcases Nat.lt_trichotomy (rank a.status) (rank b.status) with h2 | h2 | h2
      · exact Or.inl (Or.inr ⟨h, Or.inl h2⟩)
      · rcases charsLe_total a.message.data b.message.data with h3 | h3
        · exact Or.inl (Or.inr ⟨h, Or.inr ⟨h2, h3⟩⟩)
        · exact Or.inr (Or.inr ⟨h.symm, Or.inr ⟨h2.symm, h3⟩⟩)
      · exact Or.inr (Or.inr ⟨h.symm, Or.inl h2⟩)
    · exact Or.inr (Or.inl h)⟩

instance : IsTrans Update updLE :=
  ⟨fun a b c hab hbc => by
    unfold updLE at *
    rcases hab with h1 | ⟨he1, h1⟩ <;> rcases hbc with h2 | ⟨he2, h2⟩
    · exact Or.inl (by omega)
    · exact Or.inl (by omega)
    · exact Or.inl (by omega)
    · refine Or.inr ⟨by omega, ?_⟩
      rcases h1 with h1 | ⟨hr1, h1⟩ <;> rcases h2 with h2 | ⟨hr2, h2⟩
      · exact Or.inl (by omega)
      · exact Or.inl (by omega)
      · exact Or.inl (by omega)
      · exact Or.inr ⟨by omega, charsLe_trans _ _ _ h1 h2⟩⟩

/-- Claim C8: the finalized update list is sorted by the key (timestamp,
status rank per `STATUS_ORDER`, message text) — `updLE` — and is a
permutation of the merged update-dict values; the status sequence lists the
statuses in that order. -/
theorem finalize_sorted (inc : MergedIncident) (f : FinalizedIncident)
    (h : finalize_incident inc = .ok f) :
    f.updates.Sorted updLE ∧
    ((inc.updates.map (·.2)).Perm f.updates) ∧
    f.status_sequence = f.updates.map (·.status) := by
  unfold finalize_incident at h
  simp only [] at h
  cases hpw : parse_impact_window
      (((inc.updates.map (·.2)).insertionSort updLE).map (·.message)) with
  | error e => rw [hpw] at h; simp at h
  | ok iw =>
    rw [hpw] at h
    simp only [Except.ok.injEq] at h
    subst h
    exact ⟨List.sorted_insertionSort _ _, (List.perm_insertionSort _ _).symm, rfl⟩

/-- Witness for `finalize_sorted`: statuses {Update, Investigating,
Resolved} at one timestamp finalize to [Investigating, Update, Resolved]. -/
theorem finalize_sorted_witness :
    finalize_incident (merge_incident none c8e) = .ok c8fin ∧
    c8fin.status_sequence = ["Investigating", "Update", "Resolved"] ∧
    (c8fin.updates.Sorted updLE ∧
     (((merge_incident none c8e).updates.map (·.2)).Perm c8fin.updates) ∧
     c8fin.status_sequence = c8fin.updates.map (·.status)) :=
  ⟨by decide, by decide,
   finalize_sorted (merge_incident none c8e) c8fin (by decide)⟩

end GHStatus
